import Mathlib

/-!
Verification of the CS532_Project sources.

Part A embeds `src/api/data_loader.py` (class `DataLoader`): discovery of
partitioned parquet files, the date/symbol filters and the
concatenate / sort / re-filter / tail pipeline of `load_ohlc` and
`load_volatility` (the two methods are verbatim duplicates in the source,
differing only in the directory they scan; we embed the shared pipeline once
and instantiate it twice).

Part B embeds `src/producer/binance_producer.py` (class `BinanceProducer`):
the bounded Kafka connection retry loop `connect_kafka` and the WebSocket
message decoder `on_message`.

Modelling conventions: Python `Optional[str]` parameters become
`Option String`, with Python truthiness (`if symbol:`) made explicit
(`None` and `""` are both falsy); a parquet file is its path (list of path
segments, as in `pathlib.Path.parts`) together with `Option (List Row)`
content, `none` standing for a read that raises (the `except` branch);
timestamps are already-normalized UTC instants modelled as `Int`
(epoch milliseconds); `pandas.concat` is list concatenation.
`DataFrame.sort_values('timestamp')` is modelled by a structurally
recursive sort keyed on the timestamp (an insertion sort, so that it
evaluates in the kernel); pandas' default quicksort guarantees a sorted
permutation,
which is all the theorems below rely on — no theorem in this file depends
on the order of rows with equal timestamps.  String primitives (equality,
lexicographic `<`, `split`, `in`, `startswith`, `/`-join) are implemented
by structural recursion on character lists so that every definition
evaluates inside the kernel.
-/

/-- Python string equality, on the character sequences. -/
def strEqB (a b : String) : Bool :=
  a.toList == b.toList

/-- Python lexicographic string `<` (code-point order). -/
def charListLt : List Char → List Char → Bool
  | [], [] => false
  | [], _ :: _ => true
  | _ :: _, [] => false
  | a :: as, b :: bs => a < b || (a == b && charListLt as bs)

/-- Comparison `a < b` for Python strings. -/
def strLtB (a b : String) : Bool :=
  charListLt a.toList b.toList

/-- Python's `s.split(sep)` for a one-character separator. -/
def splitOnChar (sep : Char) : List Char → List (List Char)
  | [] => [[]]
  | c :: cs =>
    let rest := splitOnChar sep cs
    if c == sep then [] :: rest
    else match rest with
      | [] => [[c]]
      | r :: rs => (c :: r) :: rs

/-- Substring test on character lists: Python's `needle in haystack`. -/
def substrCheck (needle : List Char) : List Char → Bool
  | [] => needle.isEmpty
  | c :: cs => needle.isPrefixOf (c :: cs) || substrCheck needle cs

/-- Python's `needle in haystack` for strings. -/
def strContains (haystack needle : String) : Bool :=
  substrCheck needle.toList haystack.toList

/-- One stored row, as consumed by the retrieval engine.  Only the
`timestamp` and `symbol` columns steer the pipeline; `payload` stands for
the remaining numeric columns (OHLC fields resp. volatility). -/
structure Row where
  timestamp : Int
  symbol : String
  payload : Int
  deriving Repr, DecidableEq

/-- A parquet file found by `base_dir.glob("**/*.parquet")`: its path
segments (`pathlib.Path.parts`) and its content; `content = none` models
`pd.read_parquet` raising (the file is skipped by the loader). -/
structure PFile where
  parts : List String
  content : Option (List Row)
  deriving Repr, DecidableEq

/-- Rendering `str(f)` of a `pathlib` path: the segments joined by `/`. -/
def pathChars (f : PFile) : List Char :=
  match f.parts with
  | [] => []
  | p :: ps => ps.foldl (fun acc q => acc ++ '/' :: q.toList) p.toList

/-- Order `a ≤ b` on files by Python's path order (`sorted(files)` sorts
by the path string ascending). -/
def fileLE (a b : PFile) : Prop :=
  charListLt (pathChars b) (pathChars a) = false

instance : DecidableRel fileLE :=
  fun _ _ => instDecidableEqBool _ _

/-- Python's `sorted(files)`: paths ascending (total order on strings). -/
def sortFiles (files : List PFile) : List PFile :=
  files.insertionSort fileLE

/-- Embeds `DataLoader._find_parquet_files` for one dataset directory:
`store` is the glob result for that directory; the symbol and date filters
are substring tests on the full path string (skipped when the argument is
falsy, i.e. `None` or `""`), and the result is path-sorted. -/
def findParquetFiles (store : List PFile) (symbol dateFilter : Option String) :
    List PFile :=
  let files := store
  let files := match symbol with
    | some s => if s.toList.isEmpty then files else
        files.filter (fun f => substrCheck ("symbol=" ++ s).toList (pathChars f))
    | none => files
  let files := match dateFilter with
    | some d => if d.toList.isEmpty then files else
        files.filter (fun f => substrCheck ("date=" ++ d).toList (pathChars f))
    | none => files
  sortFiles files

/-- The date-derivation loop of `load_ohlc`/`load_volatility`: the first
path segment starting with `"date="`, split on `"="`, index 1.  `none`
when no segment starts with `"date="`. -/
def extractDate (parts : List String) : Option String :=
  match parts.find? (fun p => "date=".toList.isPrefixOf p.toList) with
  | some p => some (String.mk ((splitOnChar '=' p.toList).getD 1 []))
  | none => none

/-- Test `if start_date and file_date and file_date < start_date: continue` —
Python truthiness (`None`/`""` falsy) plus lexicographic string `<`. -/
def startExcludes (startDate fileDate : Option String) : Bool :=
  match startDate, fileDate with
  | some s, some d => !s.toList.isEmpty && !d.toList.isEmpty && strLtB d s
  | _, _ => false

/-- Test `if end_date and file_date and file_date > end_date: continue`. -/
def endExcludes (endDate fileDate : Option String) : Bool :=
  match endDate, fileDate with
  | some e, some d => !e.toList.isEmpty && !d.toList.isEmpty && strLtB e d
  | _, _ => false

/-- The combined per-file date exclusion test of the loaders. -/
def dateExcluded (startDate endDate fileDate : Option String) : Bool :=
  startExcludes startDate fileDate || endExcludes endDate fileDate

/-- The sort key of `sort_values('timestamp')`: timestamp ascending. -/
def rowLE (a b : Row) : Prop :=
  a.timestamp ≤ b.timestamp

instance : DecidableRel rowLE :=
  fun a b => Int.decLe a.timestamp b.timestamp

instance : IsTotal Row rowLE :=
  ⟨fun a b => le_total a.timestamp b.timestamp⟩

instance : IsTrans Row rowLE :=
  ⟨fun _ _ _ hab hbc => le_trans hab hbc⟩

/-- Embeds `result.sort_values('timestamp')`: a sorted permutation of the rows,
keyed on the timestamp. -/
def sortRows (rows : List Row) : List Row :=
  rows.insertionSort rowLE

/-- Embeds `if symbol: result = result[result['symbol'] == symbol]` — the content
re-filter, skipped when `symbol` is falsy. -/
def symbolFilter (symbol : Option String) (rows : List Row) : List Row :=
  match symbol with
  | some s => if s.toList.isEmpty then rows
      else rows.filter (fun r => strEqB r.symbol s)
  | none => rows

/-- Embeds `DataFrame.tail(n)`: for `n ≥ 0` the last `min n len` rows; for
negative `n` all rows but the first `|n|`. -/
def pyTail (n : Int) (rows : List Row) : List Row :=
  if 0 ≤ n then rows.drop (rows.length - n.toNat)
  else rows.drop ((-n).toNat)

/-- The shared body of `load_ohlc` and `load_volatility` (the two methods
are textually identical in the source apart from the directory scanned):
find candidates by path symbol filter, return empty when none; per file
derive its date and skip it when date-excluded, read it and skip it on a
read error; return empty when nothing loaded; else concatenate, sort by
timestamp, re-filter by content symbol, and `tail(limit)` when `limit`
is truthy (not `None` and nonzero). -/
def loadPipeline (store : List PFile) (symbol startDate endDate : Option String)
    (limit : Option Int) : List Row :=
  let files := findParquetFiles store symbol none
  if files.isEmpty then []
  else
    let dfs := (files.filter
        (fun f => !dateExcluded startDate endDate (extractDate f.parts))).filterMap
      (fun f => f.content)
    if dfs.isEmpty then []
    else
      let result := dfs.flatten
      let result := sortRows result
      let result := symbolFilter symbol result
      match limit with
      | none => result
      | some k => if k == 0 then result else pyTail k result

/-- The `DataLoader` state: the glob results of its two dataset
directories (`ohlc/` and `volatility/`). -/
structure DataLoader where
  ohlcStore : List PFile
  volStore : List PFile

/-- Embeds `DataLoader.load_ohlc`. -/
def loadOHLC (dl : DataLoader) (symbol startDate endDate : Option String)
    (limit : Option Int) : List Row :=
  loadPipeline dl.ohlcStore symbol startDate endDate limit

/-- Embeds `DataLoader.load_volatility`. -/
def loadVolatility (dl : DataLoader) (symbol startDate endDate : Option String)
    (limit : Option Int) : List Row :=
  loadPipeline dl.volStore symbol startDate endDate limit

/-- The concatenation (in file order) of the rows of all candidate files
that pass the path symbol filter and the date filter and load
successfully — the content of `pd.concat(dfs)` in the loaders. -/
def rawRows (store : List PFile) (symbol startDate endDate : Option String) :
    List Row :=
  (((findParquetFiles store symbol none).filter
      (fun f => !dateExcluded startDate endDate (extractDate f.parts))).filterMap
    (fun f => f.content)).flatten

/-- The multiset of rows a query logically matches: all rows of candidate
files that pass the path symbol filter, the date filter and load
successfully, re-filtered by content symbol.  The loaders return a
permutation of this list (sorted, and tail-truncated under a limit). -/
def queryMatched (store : List PFile) (symbol startDate endDate : Option String) :
    List Row :=
  symbolFilter symbol (rawRows store symbol startDate endDate)

/-!
Part B: `src/producer/binance_producer.py`.

`connect_kafka` runs `for attempt in range(max_retries)` with
`max_retries = 10`, `retry_delay = 5`: on success it returns `True`; on
failure it sleeps `retry_delay` seconds unless this was the last attempt,
in which case it re-raises.  We embed the loop as structural recursion on
the number of remaining attempts, parametrised by an oracle giving each
attempt's outcome, and record the observable trace (attempts made and
sleeps performed) together with the Python-level result
(`Except Unit Bool`, where `.error` is the re-raised exception).
-/

/-- One observable step of `connect_kafka`: an attempt (with its index and
outcome) or a `time.sleep` of the given number of seconds. -/
inductive KStep where
  | attempt (i : Nat) (ok : Bool)
  | sleep (secs : Nat)
  deriving Repr, DecidableEq

/-- The `for attempt in range(max_retries)` loop of `connect_kafka`,
starting at attempt index `attempt` with `remaining` iterations left
(`remaining = max_retries - attempt`); `outcome i` tells whether the `i`-th
`KafkaProducer(...)` construction succeeds.  Returns the step trace and
the result: `.ok true` for `return True`, `.error ()` for the re-raise on
the final failed attempt, `.ok false` for the unreachable fall-through
`return False`. -/
def connectAttempts (outcome : Nat → Bool) (retryDelay : Nat) :
    Nat → Nat → List KStep × Except Unit Bool
  | _, 0 => ([], .ok false)
  | attempt, remaining + 1 =>
    if outcome attempt then ([.attempt attempt true], .ok true)
    else if remaining == 0 then ([.attempt attempt false], .error ())
    else
      let r := connectAttempts outcome retryDelay (attempt + 1) remaining
      (.attempt attempt false :: .sleep retryDelay :: r.1, r.2)

/-- Embeds `BinanceProducer.connect_kafka`: `max_retries = 10`, `retry_delay = 5`,
attempts starting at index 0. -/
def connectKafka (outcome : Nat → Bool) : List KStep × Except Unit Bool :=
  connectAttempts outcome 5 0 10

/-- The trace of `rem` consecutive failed attempts starting at index
`attempt`, with a `d`-second sleep between consecutive attempts (and none
after the last). -/
def failTraceFrom (d : Nat) : Nat → Nat → List KStep
  | _, 0 => []
  | attempt, 1 => [.attempt attempt false]
  | attempt, rem + 2 =>
    .attempt attempt false :: .sleep d :: failTraceFrom d (attempt + 1) (rem + 1)

/-- The trace of `n` failed attempts starting at index `attempt`, each
followed by a `d`-second sleep, ending in a successful attempt. -/
def succTraceFrom (d : Nat) : Nat → Nat → List KStep
  | attempt, 0 => [.attempt attempt true]
  | attempt, n + 1 =>
    .attempt attempt false :: .sleep d :: succTraceFrom d (attempt + 1) n

/-- Count of connection attempts in a trace. -/
def countAttempts (tr : List KStep) : Nat :=
  tr.countP (fun s => match s with | .attempt _ _ => true | .sleep _ => false)

/-- Equality on `Except` results is decidable (used to evaluate the
retry loop and decoder on concrete inputs). -/
instance {ε α : Type} [DecidableEq ε] [DecidableEq α] :
    DecidableEq (Except ε α) := fun a b =>
  match a, b with
  | .ok x, .ok y =>
    if h : x = y then .isTrue (by rw [h])
    else .isFalse (fun hh => h (Except.ok.inj hh))
  | .error x, .error y =>
    if h : x = y then .isTrue (by rw [h])
    else .isFalse (fun hh => h (Except.error.inj hh))
  | .ok _, .error _ => .isFalse (fun hh => Except.noConfusion hh)
  | .error _, .ok _ => .isFalse (fun hh => Except.noConfusion hh)

/-!
`on_message` decoding.  A raw WebSocket message goes through
`json.loads`; the decoded value is inspected with `'e' in data` and
`data['e'] == 'aggTrade'`; an aggTrade dict is normalized into the
`trade_data` dict (with `float()` conversions on `p` and `q`) and sent to
Kafka.  The whole body is wrapped in `try/except Exception`, so decode
failures are logged and dropped, never re-raised.  We model the parsed
JSON value shallowly (field values are leaves: strings, ints, decimal
numbers, booleans — nothing in the repository inspects nested containers
inside a trade message), with distinguished constructors for a
`json.loads` failure and for a non-dict top-level value.  Numeric values
are kept exact as canonical fractions (`PyNum`), so that decoding reduces
inside the kernel.
-/

/-- An exact numeric value `num / den` in lowest terms (`den > 0` for
values built by `mkPyNum`).  Stands for the real value of a Python float
obtained from a decimal string, kept exact. -/
structure PyNum where
  num : Int
  den : Nat
  deriving Repr, DecidableEq

/-- Build the canonical fraction `n / d` (lowest terms, positive
denominator). -/
def mkPyNum (n : Int) (d : Nat) : PyNum :=
  if d == 0 then ⟨0, 0⟩
  else
    let g := Nat.gcd n.natAbs d
    ⟨n / (g : Int), d / g⟩

/-- The rational value of a `PyNum` (for readable statements). -/
def PyNum.toRat (x : PyNum) : ℚ :=
  (x.num : ℚ) / (x.den : ℚ)

/-- A leaf JSON value as produced by `json.loads` for a message field. -/
inductive JLeaf where
  | jstr (s : String)
  | jint (n : Int)
  | jnum (x : PyNum)
  | jbool (b : Bool)
  deriving Repr, DecidableEq

/-- The result of `json.loads(message)` as seen by `on_message`:
`parseFail` when `json.loads` raises, `scalar` for a non-dict top-level
value, `dict` for a JSON object (later duplicate keys overwrite earlier
ones, as in Python dicts). -/
inductive PyMsg where
  | parseFail
  | scalar (v : JLeaf)
  | dict (fields : List (String × JLeaf))
  deriving Repr, DecidableEq

/-- Python dict lookup for a dict built from a key/value list: the last
binding of a key wins. -/
def lookupLast (fields : List (String × JLeaf)) (k : String) : Option JLeaf :=
  fields.foldl (fun acc kv => if strEqB kv.1 k then some kv.2 else acc) none

/-- Subscript `data[k]`: the value, or a raised `KeyError`. -/
def getItem (fields : List (String × JLeaf)) (k : String) : Except Unit JLeaf :=
  match lookupLast fields k with
  | some v => .ok v
  | none => .error ()

/-- Digits to a natural number. -/
def digitsToNat (cs : List Char) : Nat :=
  cs.foldl (fun acc c => acc * 10 + (c.toNat - 48)) 0

/-- Python `float(s)` for a decimal string: optional sign, then digits with an
optional fractional part (at least one digit overall).  The exotic float
syntaxes (`inf`, `nan`, exponents, underscores) accepted by Python do not
occur in the feed's numeric fields and are modelled as failures.  The
value is kept exact. -/
def parseFloatStr (s : String) : Option PyNum :=
  let cs := s.toList
  let signAndRest : Int × List Char :=
    match cs with
    | '-' :: r => (-1, r)
    | '+' :: r => (1, r)
    | r => (1, r)
  let sign := signAndRest.1
  let rest := signAndRest.2
  let intPart := rest.takeWhile Char.isDigit
  let afterInt := rest.dropWhile Char.isDigit
  match afterInt with
  | [] =>
    if intPart.isEmpty then none
    else some (mkPyNum (sign * (digitsToNat intPart : Int)) 1)
  | '.' :: frac =>
    if frac.all Char.isDigit && !(intPart.isEmpty && frac.isEmpty) then
      some (mkPyNum (sign * (digitsToNat (intPart ++ frac) : Int))
        (10 ^ frac.length))
    else none
  | _ => none

/-- Python `float(x)` on a decoded JSON leaf: parses strings, passes
numbers through, maps booleans to 0/1 (all of which Python accepts). -/
def pyFloat : JLeaf → Except Unit PyNum
  | .jstr s =>
    match parseFloatStr s with
    | some x => .ok x
    | none => .error ()
  | .jint n => .ok ⟨n, 1⟩
  | .jnum x => .ok x
  | .jbool b => .ok ⟨if b then 1 else 0, 1⟩

/-- The normalized trade event (`trade_data` dict built by `on_message`).
Only `price` and `quantity` are converted (`float(...)`); the other four
fields are stored exactly as decoded from JSON. -/
structure TradeEvent where
  symbol : JLeaf
  price : PyNum
  quantity : PyNum
  timestamp : JLeaf
  is_buyer_maker : JLeaf
  trade_id : JLeaf
  deriving Repr, DecidableEq

/-- The `try`-block body of `on_message`: `.error ()` is a raised
exception (later swallowed by the handler), `.ok none` means the message
was silently ignored (not an aggTrade event), `.ok (some t)` means the
normalized event `t` is sent to Kafka.  `'e' in data` raises `TypeError`
on a non-container (int/float/bool) top level; on a string top level it is
a substring test, and a subsequent `data['e']` raises `TypeError`. -/
def decodeTrade : PyMsg → Except Unit (Option TradeEvent)
  | .parseFail => .error ()
  | .scalar (.jstr s) =>
    if strContains s "e" then .error () else .ok none
  | .scalar _ => .error ()
  | .dict fields =>
    match lookupLast fields "e" with
    | none => .ok none
    | some v =>
      if v == .jstr "aggTrade" then do
        let s ← getItem fields "s"
        let p ← getItem fields "p"
        let price ← pyFloat p
        let q ← getItem fields "q"
        let quantity ← pyFloat q
        let t ← getItem fields "T"
        let m ← getItem fields "m"
        let a ← getItem fields "a"
        .ok (some ⟨s, price, quantity, t, m, a⟩)
      else .ok none

/-- What `on_message` does with one message, seen from outside. -/
inductive DecodeOutcome where
  | published (t : TradeEvent)
  | ignored
  | decodeError
  deriving Repr, DecidableEq

/-- Embeds `BinanceProducer.on_message`: the `try` body wrapped in
`except Exception: logger.error(...)` — a total function; every raised
exception becomes a logged-and-dropped `decodeError`, never a raise to
the WebSocket client. -/
def onMessage (m : PyMsg) : DecodeOutcome :=
  match decodeTrade m with
  | .ok (some t) => .published t
  | .ok none => .ignored
  | .error _ => .decodeError

/-- The events for which a Kafka publish attempt is made, across a
sequence of delivered messages (`send_to_kafka` is called exactly for the
successfully decoded aggTrade events, in order). -/
def publishedEvents (msgs : List PyMsg) : List TradeEvent :=
  msgs.filterMap (fun m =>
    match onMessage m with
    | .published t => some t
    | _ => none)

/-!
Lemma layer for the retrieval pipeline.
-/

theorem strEqB_iff {a b : String} : strEqB a b = true ↔ a = b := by
  unfold strEqB
  rw [beq_iff_eq]
  constructor
  · intro h
    exact String.ext h
  · intro h
    rw [h]

theorem toList_isEmpty_false {s : String} (h : s ≠ "") :
    s.toList.isEmpty = false := by
  rw [List.isEmpty_eq_false]
  intro hc
  exact h (String.ext hc)

theorem symbolFilter_nil (sym : Option String) : symbolFilter sym [] = [] := by
  cases sym with
  | none => rfl
  | some s => simp [symbolFilter]

theorem symbolFilter_perm (sym : Option String) {l l' : List Row}
    (h : l.Perm l') : (symbolFilter sym l).Perm (symbolFilter sym l') := by
  cases sym with
  | none => exact h
  | some s =>
    simp only [symbolFilter]
    split
    · exact h
    · exact h.filter _

theorem symbolFilter_pairwise (sym : Option String) {l : List Row}
    (h : l.Pairwise rowLE) : (symbolFilter sym l).Pairwise rowLE := by
  cases sym with
  | none => exact h
  | some s =>
    simp only [symbolFilter]
    split
    · exact h
    · exact h.filter _

theorem sortRows_perm (l : List Row) : (sortRows l).Perm l :=
  List.perm_insertionSort rowLE l

theorem sortRows_pairwise (l : List Row) : (sortRows l).Pairwise rowLE :=
  List.sorted_insertionSort rowLE l

theorem sortRows_nil : sortRows [] = [] := rfl

theorem pyTail_nil (k : Int) : pyTail k [] = [] := by
  simp [pyTail]

/-- Branch-free characterization of the pipeline: the early returns for
"no candidate files" and "nothing loaded" coincide with the main branch
evaluated on empty data. -/
theorem loadPipeline_eq (store : List PFile) (sym sd ed : Option String)
    (lim : Option Int) :
    loadPipeline store sym sd ed lim =
      match lim with
      | none => symbolFilter sym (sortRows (rawRows store sym sd ed))
      | some k => if k == 0 then symbolFilter sym (sortRows (rawRows store sym sd ed))
          else pyTail k (symbolFilter sym (sortRows (rawRows store sym sd ed))) := by
  by_cases h1 : (findParquetFiles store sym none).isEmpty = true
  · have he : findParquetFiles store sym none = [] := by
      simpa [List.isEmpty_iff] using h1
    have hraw : rawRows store sym sd ed = [] := by
      simp [rawRows, he]
    cases lim with
    | none => simp [loadPipeline, h1, hraw, sortRows_nil, symbolFilter_nil]
    | some k =>
      simp [loadPipeline, h1, hraw, sortRows_nil, symbolFilter_nil, pyTail_nil]
  · by_cases h2 : (((findParquetFiles store sym none).filter
        (fun f => !dateExcluded sd ed (extractDate f.parts))).filterMap
          (fun f => f.content)).isEmpty = true
    · have hd : ((findParquetFiles store sym none).filter
          (fun f => !dateExcluded sd ed (extractDate f.parts))).filterMap
            (fun f => f.content) = [] := by
        simpa [List.isEmpty_iff] using h2
      have hraw : rawRows store sym sd ed = [] := by
        simp [rawRows, hd]
      cases lim with
      | none => simp [loadPipeline, h1, h2, hraw, sortRows_nil, symbolFilter_nil]
      | some k =>
        simp [loadPipeline, h1, h2, hraw, sortRows_nil, symbolFilter_nil,
          pyTail_nil]
    · cases lim with
      | none => simp [loadPipeline, h1, h2, rawRows]
      | some k => simp [loadPipeline, h1, h2, rawRows]

/-- Without a limit, the pipeline returns a permutation of the matched
multiset. -/
theorem loadPipeline_none_perm (store : List PFile) (sym sd ed : Option String) :
    (loadPipeline store sym sd ed none).Perm (queryMatched store sym sd ed) := by
  rw [loadPipeline_eq, queryMatched]
  exact symbolFilter_perm sym (sortRows_perm _)

/-- Without a limit, the pipeline output is sorted by timestamp. -/
theorem loadPipeline_none_pairwise (store : List PFile)
    (sym sd ed : Option String) :
    (loadPipeline store sym sd ed none).Pairwise rowLE := by
  rw [loadPipeline_eq]
  exact symbolFilter_pairwise sym (sortRows_pairwise _)

/-- The tail-limit behaviour of the pipeline for a positive limit `k`:
the output has `min k total` rows, is sorted by timestamp, and together
with the dropped rows is a permutation of the matched multiset, every
dropped row being no later than every kept row. -/
theorem loadPipeline_tail_limit (store : List PFile) (sym sd ed : Option String)
    (k : Int) (hk : 1 ≤ k) :
    (loadPipeline store sym sd ed (some k)).length
        = min k.toNat (queryMatched store sym sd ed).length
    ∧ (loadPipeline store sym sd ed (some k)).Pairwise rowLE
    ∧ ∃ dropped : List Row,
        (dropped ++ loadPipeline store sym sd ed (some k)).Perm
            (queryMatched store sym sd ed)
        ∧ ∀ x ∈ dropped, ∀ y ∈ loadPipeline store sym sd ed (some k), rowLE x y := by
  have hk0 : (k == 0) = false := by
    simp only [beq_eq_false_iff_ne, ne_eq]
    omega
  have hknn : (0 : Int) ≤ k := by omega
  set base := symbolFilter sym (sortRows (rawRows store sym sd ed)) with hbase
  have hres : loadPipeline store sym sd ed (some k) = pyTail k base := by
    rw [loadPipeline_eq]
    simp [hk0]
  have hperm : base.Perm (queryMatched store sym sd ed) := by
    rw [hbase, queryMatched]
    exact symbolFilter_perm sym (sortRows_perm _)
  have hpw : base.Pairwise rowLE := by
    rw [hbase]
    exact symbolFilter_pairwise sym (sortRows_pairwise _)
  have hlen : base.length = (queryMatched store sym sd ed).length :=
    hperm.length_eq
  have htail : pyTail k base = base.drop (base.length - k.toNat) := by
    simp [pyTail, hknn]
  have hsplit : base.take (base.length - k.toNat)
      ++ base.drop (base.length - k.toNat) = base :=
    List.take_append_drop _ _
  refine ⟨?_, ?_, base.take (base.length - k.toNat), ?_, ?_⟩
  · rw [hres, htail, List.length_drop, ← hlen]
    omega
  · rw [hres, htail]
    exact hpw.sublist (List.drop_sublist _ _)
  · rw [hres, htail, hsplit]
    exact hperm
  · intro x hx y hy
    rw [hres, htail] at hy
    have := (List.pairwise_append.mp (by rw [hsplit]; exact hpw)).2.2
    exact this x hx y hy

/-- When the candidate search finds no files, the pipeline returns the
empty list. -/
theorem loadPipeline_no_candidates (store : List PFile)
    (sym sd ed : Option String) (lim : Option Int)
    (h : findParquetFiles store sym none = []) :
    loadPipeline store sym sd ed lim = [] := by
  simp [loadPipeline, h]

/-- When every candidate file of the query fails to load, the pipeline
returns the empty list (files of the store that the path symbol filter
already excluded are irrelevant). -/
theorem loadPipeline_all_fail (store : List PFile) (sym sd ed : Option String)
    (lim : Option Int)
    (h : ∀ f ∈ findParquetFiles store sym none, f.content = none) :
    loadPipeline store sym sd ed lim = [] := by
  have hraw : rawRows store sym sd ed = [] := by
    unfold rawRows
    have : ((findParquetFiles store sym none).filter
        (fun f => !dateExcluded sd ed (extractDate f.parts))).filterMap
          (fun f => f.content) = [] := by
      rw [List.filterMap_eq_nil_iff]
      intro f hf
      exact h f (List.mem_filter.mp hf).1
    rw [this]
    rfl
  rw [loadPipeline_eq]
  cases lim with
  | none => simp [hraw, sortRows_nil, symbolFilter_nil]
  | some k => simp [hraw, sortRows_nil, symbolFilter_nil, pyTail_nil]

/-!
Claim theorems for the retrieval engine.
-/

/-- C10: a supplied limit of `0` is falsy in `if limit:`, so `load_ohlc`
and `load_volatility` skip the truncation entirely — the query behaves
exactly as if no limit had been supplied and returns all matched rows,
rather than returning zero rows. -/
theorem limit_zero_returns_all (dl : DataLoader) (sym sd ed : Option String) :
    loadOHLC dl sym sd ed (some 0) = loadOHLC dl sym sd ed none
    ∧ (loadOHLC dl sym sd ed (some 0)).Perm (queryMatched dl.ohlcStore sym sd ed)
    ∧ loadVolatility dl sym sd ed (some 0) = loadVolatility dl sym sd ed none
    ∧ (loadVolatility dl sym sd ed (some 0)).Perm
        (queryMatched dl.volStore sym sd ed) := by
  have h1 : loadOHLC dl sym sd ed (some 0) = loadOHLC dl sym sd ed none := by
    unfold loadOHLC
    rw [loadPipeline_eq, loadPipeline_eq]
    simp
  have h2 : loadVolatility dl sym sd ed (some 0)
      = loadVolatility dl sym sd ed none := by
    unfold loadVolatility
    rw [loadPipeline_eq, loadPipeline_eq]
    simp
  refine ⟨h1, ?_, h2, ?_⟩
  · rw [h1]
    exact loadPipeline_none_perm dl.ohlcStore sym sd ed
  · rw [h2]
    exact loadPipeline_none_perm dl.volStore sym sd ed

/-- C9: with no candidate files, or with every *candidate* file of the
query failing to load, both loaders return the empty list whatever the
limit (they are total functions — no error is raised); and a file's load
failure never removes other files' rows: the unlimited query result
contains exactly the rows of the successfully loaded, date-admitted
candidates that pass the content symbol filter. -/
theorem empty_input_law (dl : DataLoader) (sym sd ed : Option String)
    (lim : Option Int) :
    (findParquetFiles dl.ohlcStore sym none = [] →
      loadOHLC dl sym sd ed lim = [])
    ∧ ((∀ f ∈ findParquetFiles dl.ohlcStore sym none, f.content = none) →
      loadOHLC dl sym sd ed lim = [])
    ∧ (∀ r : Row, r ∈ loadOHLC dl sym sd ed none ↔
        r ∈ queryMatched dl.ohlcStore sym sd ed)
    ∧ (findParquetFiles dl.volStore sym none = [] →
      loadVolatility dl sym sd ed lim = [])
    ∧ ((∀ f ∈ findParquetFiles dl.volStore sym none, f.content = none) →
      loadVolatility dl sym sd ed lim = [])
    ∧ (∀ r : Row, r ∈ loadVolatility dl sym sd ed none ↔
        r ∈ queryMatched dl.volStore sym sd ed) := by
  refine ⟨?_, ?_, ?_, ?_, ?_, ?_⟩
  · exact fun h => loadPipeline_no_candidates dl.ohlcStore sym sd ed lim h
  · exact fun h => loadPipeline_all_fail dl.ohlcStore sym sd ed lim h
  · exact fun r => (loadPipeline_none_perm dl.ohlcStore sym sd ed).mem_iff
  · exact fun h => loadPipeline_no_candidates dl.volStore sym sd ed lim h
  · exact fun h => loadPipeline_all_fail dl.volStore sym sd ed lim h
  · exact fun r => (loadPipeline_none_perm dl.volStore sym sd ed).mem_iff

/-- C9 witness: an empty store has no candidate files and the query
returns the empty list; and on a mixed store where only the queried
symbol's lone candidate file is unreadable, a limit-bearing query also
returns the empty list. -/
theorem empty_input_law_witness :
    loadOHLC ⟨[], []⟩ (some "BTCUSD") (some "2023-11-08") none (some 5) = []
    ∧ loadOHLC ⟨[⟨["ohlc", "symbol=BTCUSD", "date=2023-11-08", "a.parquet"],
        none⟩,
        ⟨["ohlc", "symbol=ETHUSD", "date=2023-11-08", "b.parquet"],
        some [⟨1, "ETHUSD", 0⟩]⟩], []⟩
      (some "BTCUSD") none none (some 1000) = [] :=
  ⟨(empty_input_law ⟨[], []⟩ (some "BTCUSD") (some "2023-11-08") none
      (some 5)).1 (by decide),
   (empty_input_law ⟨[⟨["ohlc", "symbol=BTCUSD", "date=2023-11-08",
      "a.parquet"], none⟩,
      ⟨["ohlc", "symbol=ETHUSD", "date=2023-11-08", "b.parquet"],
      some [⟨1, "ETHUSD", 0⟩]⟩], []⟩
      (some "BTCUSD") none none (some 1000)).2.1 (by decide)⟩

/-- C1 counterexample: with a supplied row limit `k = 0` and one matched
row, `load_ohlc` returns that one row — not `min(0, 1) = 0` rows — because
`if limit:` treats `0` as falsy and skips the truncation. -/
theorem tail_limit_law_zero_counterexample :
    (loadOHLC ⟨[⟨["ohlc", "symbol=BTCUSD", "date=2023-11-08", "a.parquet"],
        some [⟨1, "BTCUSD", 0⟩]⟩], []⟩ none none none (some 0)).length = 1
    ∧ (queryMatched [⟨["ohlc", "symbol=BTCUSD", "date=2023-11-08", "a.parquet"],
        some [⟨1, "BTCUSD", 0⟩]⟩] none none none).length = 1
    ∧ ¬ ((loadOHLC ⟨[⟨["ohlc", "symbol=BTCUSD", "date=2023-11-08", "a.parquet"],
        some [⟨1, "BTCUSD", 0⟩]⟩], []⟩ none none none (some 0)).length
      = min ((0 : Int).toNat)
        (queryMatched [⟨["ohlc", "symbol=BTCUSD", "date=2023-11-08",
          "a.parquet"], some [⟨1, "BTCUSD", 0⟩]⟩] none none none).length) := by
  refine ⟨by decide, by decide, by decide⟩

/-- C1 (amended): for every supplied *positive* row limit `k`, both
loaders return exactly `min k total` rows, sorted ascending by timestamp,
and those rows are the `k` chronologically latest among the matched rows:
the dropped rows complete the result to a permutation of the matched
multiset and are all no later than every returned row.  (At `k = 0` the
code instead returns all matched rows, see the counterexample.) -/
theorem tail_limit_law (dl : DataLoader) (sym sd ed : Option String)
    (k : Int) (hk : 1 ≤ k) :
    ((loadOHLC dl sym sd ed (some k)).length
        = min k.toNat (queryMatched dl.ohlcStore sym sd ed).length
      ∧ (loadOHLC dl sym sd ed (some k)).Pairwise rowLE
      ∧ ∃ dropped : List Row,
          (dropped ++ loadOHLC dl sym sd ed (some k)).Perm
              (queryMatched dl.ohlcStore sym sd ed)
          ∧ ∀ x ∈ dropped, ∀ y ∈ loadOHLC dl sym sd ed (some k), rowLE x y)
    ∧ ((loadVolatility dl sym sd ed (some k)).length
        = min k.toNat (queryMatched dl.volStore sym sd ed).length
      ∧ (loadVolatility dl sym sd ed (some k)).Pairwise rowLE
      ∧ ∃ dropped : List Row,
          (dropped ++ loadVolatility dl sym sd ed (some k)).Perm
              (queryMatched dl.volStore sym sd ed)
          ∧ ∀ x ∈ dropped, ∀ y ∈ loadVolatility dl sym sd ed (some k),
              rowLE x y) :=
  ⟨loadPipeline_tail_limit dl.ohlcStore sym sd ed k hk,
   loadPipeline_tail_limit dl.volStore sym sd ed k hk⟩

/-- C1 witness: the spec's concrete scenario — two files with rows at
timestamps 0, 2 and 1, 3; `limit = 3` returns `min 3 4 = 3` rows. -/
theorem tail_limit_law_witness :
    (1 : Int) ≤ 3
    ∧ (loadOHLC ⟨[⟨["ohlc", "symbol=BTCUSD", "date=2023-11-08", "a.parquet"],
        some [⟨0, "BTCUSD", 0⟩, ⟨2, "BTCUSD", 1⟩]⟩,
        ⟨["ohlc", "symbol=BTCUSD", "date=2023-11-09", "b.parquet"],
        some [⟨1, "BTCUSD", 2⟩, ⟨3, "BTCUSD", 3⟩]⟩], []⟩
        (some "BTCUSD") none none (some 3)).length
      = min ((3 : Int).toNat)
        (queryMatched [⟨["ohlc", "symbol=BTCUSD", "date=2023-11-08",
          "a.parquet"], some [⟨0, "BTCUSD", 0⟩, ⟨2, "BTCUSD", 1⟩]⟩,
          ⟨["ohlc", "symbol=BTCUSD", "date=2023-11-09", "b.parquet"],
          some [⟨1, "BTCUSD", 2⟩, ⟨3, "BTCUSD", 3⟩]⟩]
          (some "BTCUSD") none none).length :=
  ⟨by norm_num,
   (tail_limit_law ⟨[⟨["ohlc", "symbol=BTCUSD", "date=2023-11-08",
      "a.parquet"], some [⟨0, "BTCUSD", 0⟩, ⟨2, "BTCUSD", 1⟩]⟩,
      ⟨["ohlc", "symbol=BTCUSD", "date=2023-11-09", "b.parquet"],
      some [⟨1, "BTCUSD", 2⟩, ⟨3, "BTCUSD", 3⟩]⟩], []⟩
      (some "BTCUSD") none none 3 (by norm_num)).1.1⟩

/-- C3 counterexample: a row whose *content* symbol is exactly the queried
symbol, but which is stored in a directory labelled with a different
symbol, is removed by the path-based candidate filter — the query returns
nothing even though the store holds a content-matching row. -/
theorem symbol_filter_idempotence_counterexample :
    loadOHLC ⟨[⟨["ohlc", "symbol=ETHUSD", "date=2023-11-08", "a.parquet"],
        some [⟨1, "BTCUSD", 0⟩]⟩], []⟩ (some "BTCUSD") none none none = []
    ∧ strEqB (Row.symbol ⟨1, "BTCUSD", 0⟩) "BTCUSD" = true := by
  refine ⟨by decide, by decide⟩

/-- C3 (amended): for a supplied (truthy) symbol `S`, the *content*
re-filter is exact over the rows that survive the path-based candidate
filter: every returned row has content symbol `S` (rows with a different
content symbol are always removed), and the result is a permutation of
precisely the content-matching rows among the loaded candidates.  Rows
with content symbol `S` that sit in files whose path does not contain
`symbol=S` are, however, already removed by the path filter (see the
counterexample). -/
theorem symbol_filter_content_refilter (dl : DataLoader) (S : String)
    (sd ed : Option String) (hS : S ≠ "") :
    (∀ r ∈ loadOHLC dl (some S) sd ed none, r.symbol = S)
    ∧ (loadOHLC dl (some S) sd ed none).Perm
        ((rawRows dl.ohlcStore (some S) sd ed).filter
          (fun r => strEqB r.symbol S)) := by
  have hq : queryMatched dl.ohlcStore (some S) sd ed
      = (rawRows dl.ohlcStore (some S) sd ed).filter
          (fun r => strEqB r.symbol S) := by
    unfold queryMatched symbolFilter
    simp only [toList_isEmpty_false hS, Bool.false_eq_true, if_false]
  have hperm : (loadOHLC dl (some S) sd ed none).Perm
      (queryMatched dl.ohlcStore (some S) sd ed) :=
    loadPipeline_none_perm dl.ohlcStore (some S) sd ed
  constructor
  · intro r hr
    have hmem : r ∈ queryMatched dl.ohlcStore (some S) sd ed :=
      hperm.mem_iff.mp hr
    rw [hq] at hmem
    exact strEqB_iff.mp (List.mem_filter.mp hmem).2
  · rw [← hq]
    exact hperm

/-- C3 witness: with a correctly-labelled store and symbol `BTCUSD`, the
result is a permutation of the content-matching loaded rows. -/
theorem symbol_filter_content_refilter_witness :
    (loadOHLC ⟨[⟨["ohlc", "symbol=BTCUSD", "date=2023-11-08", "a.parquet"],
        some [⟨1, "BTCUSD", 0⟩, ⟨2, "ETHUSD", 1⟩]⟩], []⟩
        (some "BTCUSD") none none none).Perm
      ((rawRows [⟨["ohlc", "symbol=BTCUSD", "date=2023-11-08", "a.parquet"],
        some [⟨1, "BTCUSD", 0⟩, ⟨2, "ETHUSD", 1⟩]⟩]
        (some "BTCUSD") none none).filter (fun r => strEqB r.symbol "BTCUSD")) :=
  (symbol_filter_content_refilter ⟨[⟨["ohlc", "symbol=BTCUSD",
    "date=2023-11-08", "a.parquet"],
    some [⟨1, "BTCUSD", 0⟩, ⟨2, "ETHUSD", 1⟩]⟩], []⟩
    "BTCUSD" none none (by decide)).2

/-- C4: a candidate file whose date cannot be derived from a `date=` path
segment is never excluded by the start/end date filtering step of the
loaders, whatever date filters are supplied; a file with a derived
(nonempty) date is excluded exactly when its date is lexicographically
below a supplied `start_date` or above a supplied `end_date` (date
filters being nonempty `YYYY-MM-DD` strings when supplied). -/
theorem date_filter_underivable (f : PFile) (sd ed : Option String) :
    (extractDate f.parts = none →
      dateExcluded sd ed (extractDate f.parts) = false)
    ∧ (∀ d : String, extractDate f.parts = some d → d ≠ "" →
        (∀ s, sd = some s → s ≠ "") → (∀ e, ed = some e → e ≠ "") →
        (dateExcluded sd ed (extractDate f.parts) = true ↔
          (∃ s, sd = some s ∧ strLtB d s = true)
          ∨ (∃ e, ed = some e ∧ strLtB e d = true))) := by
  constructor
  · intro h
    rw [h]
    rcases sd with _ | s <;> rcases ed with _ | e <;>
      simp [dateExcluded, startExcludes, endExcludes]
  · intro d hd hdne hs he
    rw [hd]
    have hdl := toList_isEmpty_false hdne
    rcases sd with _ | s
    · rcases ed with _ | e
      · simp [dateExcluded, startExcludes, endExcludes]
      · have hel := toList_isEmpty_false (he e rfl)
        simp only [dateExcluded, startExcludes, endExcludes]
        rw [hdl, hel]
        simp
    · have hsl := toList_isEmpty_false (hs s rfl)
      rcases ed with _ | e
      · simp only [dateExcluded, startExcludes, endExcludes]
        rw [hdl, hsl]
        simp
      · have hel := toList_isEmpty_false (he e rfl)
        simp only [dateExcluded, startExcludes, endExcludes]
        rw [hdl, hsl, hel]
        simp

/-- C4 witness: a file without a `date=` segment is not excluded even
under a date filter; a file dated `2023-11-08` is excluded by
`start_date = 2023-11-09`. -/
theorem date_filter_underivable_witness :
    dateExcluded (some "2023-11-09") none
      (extractDate ["ohlc", "symbol=BTCUSD", "a.parquet"]) = false
    ∧ dateExcluded (some "2023-11-09") none
      (extractDate ["ohlc", "symbol=BTCUSD", "date=2023-11-08",
        "x.parquet"]) = true :=
  ⟨(date_filter_underivable ⟨["ohlc", "symbol=BTCUSD", "a.parquet"], none⟩
      (some "2023-11-09") none).1 (by decide),
   ((date_filter_underivable ⟨["ohlc", "symbol=BTCUSD", "date=2023-11-08",
      "x.parquet"], none⟩ (some "2023-11-09") none).2 "2023-11-08"
      (by decide) (by decide)
      (fun s hs => by cases hs; decide)
      (fun e he => by cases he)).mpr
    (Or.inl ⟨"2023-11-09", rfl, by decide⟩)⟩

/-- C5: a malformed date filter is *not* rejected — `load_ohlc` applies it
as a plain lexicographic string comparison and returns a normal (here
empty) result, indistinguishable from "no data": with one stored
`BTCUSD` row dated `2023-11-08`, the query with `start_date = "banana"`
returns the empty list (since `"2023-11-08" < "banana"` as strings) while
the same query without the filter returns the row.  No layer of the query
surface validates the date strings or raises. -/
theorem malformed_date_filter_silently_applied :
    loadOHLC ⟨[⟨["ohlc", "symbol=BTCUSD", "date=2023-11-08", "a.parquet"],
        some [⟨1, "BTCUSD", 0⟩]⟩], []⟩
      (some "BTCUSD") (some "banana") none none = []
    ∧ loadOHLC ⟨[⟨["ohlc", "symbol=BTCUSD", "date=2023-11-08", "a.parquet"],
        some [⟨1, "BTCUSD", 0⟩]⟩], []⟩
      (some "BTCUSD") none none none = [⟨1, "BTCUSD", 0⟩] := by
  refine ⟨by decide, by decide⟩

/-!
Lemma layer and claim theorems for the producer.
-/

/-- If every attempt in the window fails, the retry loop performs them
all, sleeping `d` seconds between consecutive attempts, and re-raises. -/
theorem connectAttempts_allFail (outcome : Nat → Bool) (d : Nat) :
    ∀ rem att, 0 < rem → (∀ i, att ≤ i → i < att + rem → outcome i = false) →
      connectAttempts outcome d att rem = (failTraceFrom d att rem, .error ()) := by
  intro rem
  induction rem with
  | zero => intro att h0 _; omega
  | succ r ih =>
    intro att _ hf
    have h0 : outcome att = false := hf att (Nat.le_refl att) (by omega)
    cases r with
    | zero =>
      simp [connectAttempts, h0, failTraceFrom]
    | succ r' =>
      have hrec := ih (att + 1) (by omega)
        (fun i h1 h2 => hf i (by omega) (by omega))
      rw [connectAttempts.eq_2, h0, hrec]
      simp [failTraceFrom]

/-- If the first success is the `n`-th attempt of the window, the retry
loop fails `n` times (sleeping between attempts) and then returns
success. -/
theorem connectAttempts_success (outcome : Nat → Bool) (d : Nat) :
    ∀ n att rem, n < rem → outcome (att + n) = true →
      (∀ i, att ≤ i → i < att + n → outcome i = false) →
      connectAttempts outcome d att rem = (succTraceFrom d att n, .ok true) := by
  intro n
  induction n with
  | zero =>
    intro att rem hlt hs _
    cases rem with
    | zero => omega
    | succ r =>
      have h0 : outcome att = true := by simpa using hs
      simp [connectAttempts, h0, succTraceFrom]
  | succ m ih =>
    intro att rem hlt hs hf
    have h0 : outcome att = false := hf att (Nat.le_refl att) (by omega)
    cases rem with
    | zero => omega
    | succ r =>
      cases r with
      | zero => omega
      | succ r' =>
        have hrec := ih (att + 1) (r' + 1) (by omega)
          (by rw [show att + 1 + m = att + (m + 1) by omega]; exact hs)
          (fun i h1 h2 => hf i (by omega) (by omega))
        rw [connectAttempts.eq_2, h0, hrec]
        simp [succTraceFrom]

/-- The success trace contains one successful attempt after `n` failed
ones. -/
theorem countAttempts_succTraceFrom (d : Nat) :
    ∀ n att, countAttempts (succTraceFrom d att n) = n + 1 := by
  intro n
  induction n with
  | zero => intro att; rfl
  | succ m ih =>
    intro att
    simp only [succTraceFrom, countAttempts, List.countP_cons]
    have := ih (att + 1)
    simp only [countAttempts] at this
    simp [this]

/-- C6: if every Kafka connection attempt fails, `connect_kafka` performs
exactly 10 attempts with a fixed 5-second sleep between consecutive
attempts (the explicit trace below) and re-raises the last error instead
of retrying further or returning; if the first success is attempt `k`
(0-based, `k < 10`), it returns `True` at that attempt, after `k`
failures each followed by the 5-second sleep. -/
theorem bus_connect_bound (outcome : Nat → Bool) :
    ((∀ i, i < 10 → outcome i = false) →
      connectKafka outcome = (failTraceFrom 5 0 10, Except.error ()))
    ∧ countAttempts (failTraceFrom 5 0 10) = 10
    ∧ failTraceFrom 5 0 10 =
        [.attempt 0 false, .sleep 5, .attempt 1 false, .sleep 5,
         .attempt 2 false, .sleep 5, .attempt 3 false, .sleep 5,
         .attempt 4 false, .sleep 5, .attempt 5 false, .sleep 5,
         .attempt 6 false, .sleep 5, .attempt 7 false, .sleep 5,
         .attempt 8 false, .sleep 5, .attempt 9 false]
    ∧ (∀ k, k < 10 → outcome k = true → (∀ i, i < k → outcome i = false) →
        connectKafka outcome = (succTraceFrom 5 0 k, Except.ok true)
        ∧ countAttempts (succTraceFrom 5 0 k) = k + 1) := by
  refine ⟨?_, by decide, by decide, ?_⟩
  · intro h
    exact connectAttempts_allFail outcome 5 10 0 (by omega)
      (fun i _ hi => h i (by omega))
  · intro k hk hs hf
    refine ⟨?_, countAttempts_succTraceFrom 5 k 0⟩
    exact connectAttempts_success outcome 5 k 0 10 hk (by simpa using hs)
      (fun i _ hi => hf i (by omega))

/-- C6 witness: with an always-failing connection, `connect_kafka`
produces the 10-attempt trace and re-raises. -/
theorem bus_connect_bound_witness :
    connectKafka (fun _ => false) = (failTraceFrom 5 0 10, Except.error ()) :=
  (bus_connect_bound (fun _ => false)).1 (fun _ _ => rfl)

/-- All messages of a sequence that decode to publishable events are
published, one each. -/
theorem publishedEvents_all (l : List PyMsg)
    (h : ∀ m ∈ l, ∃ t, onMessage m = .published t) :
    (publishedEvents l).length = l.length := by
  induction l with
  | nil => rfl
  | cons m rest ih =>
    obtain ⟨t, ht⟩ := h m (List.mem_cons_self m rest)
    have hrest := ih (fun x hx => h x (List.mem_cons_of_mem m hx))
    simp [publishedEvents, List.filterMap_cons, ht] at hrest ⊢
    exact hrest

/-- C7: in a delivered sequence consisting of valid aggregate-trade
messages plus one malformed message (at any position), a publish attempt
is made exactly for each valid message — none for the malformed one — and
`on_message` never propagates an exception: every raise inside the `try`
body becomes a logged-and-dropped `decodeError` outcome. -/
theorem decode_isolation (pre post : List PyMsg) (bad : PyMsg)
    (hpre : ∀ m ∈ pre, ∃ t, onMessage m = .published t)
    (hpost : ∀ m ∈ post, ∃ t, onMessage m = .published t)
    (hbad : ∀ t, onMessage bad ≠ .published t) :
    publishedEvents (pre ++ bad :: post)
        = publishedEvents pre ++ publishedEvents post
    ∧ (publishedEvents (pre ++ bad :: post)).length
        = pre.length + post.length
    ∧ (∀ m : PyMsg, decodeTrade m = .error () → onMessage m = .decodeError) := by
  have hb : (match onMessage bad with
      | DecodeOutcome.published t => some t
      | _ => none) = (none : Option TradeEvent) := by
    cases hob : onMessage bad with
    | published t => exact absurd hob (hbad t)
    | ignored => rfl
    | decodeError => rfl
  have heq : publishedEvents (pre ++ bad :: post)
      = publishedEvents pre ++ publishedEvents post := by
    simp [publishedEvents, List.filterMap_append, List.filterMap_cons, hb]
  refine ⟨heq, ?_, ?_⟩
  · rw [heq, List.length_append, publishedEvents_all pre hpre,
      publishedEvents_all post hpost]
  · intro m hm
    simp [onMessage, hm]

/-- C7 witness: two valid trade messages around one unparseable message
yield exactly two publish attempts. -/
theorem decode_isolation_witness :
    (publishedEvents
      ([PyMsg.dict [("e", .jstr "aggTrade"), ("s", .jstr "BTCUSDT"),
          ("p", .jstr "1.5"), ("q", .jstr "2"), ("T", .jint 1),
          ("m", .jbool true), ("a", .jint 7)]]
        ++ PyMsg.parseFail ::
        [PyMsg.dict [("e", .jstr "aggTrade"), ("s", .jstr "ETHUSDT"),
          ("p", .jstr "3"), ("q", .jstr "0.5"), ("T", .jint 2),
          ("m", .jbool false), ("a", .jint 8)]])).length = 1 + 1 :=
  (decode_isolation
    [PyMsg.dict [("e", .jstr "aggTrade"), ("s", .jstr "BTCUSDT"),
      ("p", .jstr "1.5"), ("q", .jstr "2"), ("T", .jint 1),
      ("m", .jbool true), ("a", .jint 7)]]
    [PyMsg.dict [("e", .jstr "aggTrade"), ("s", .jstr "ETHUSDT"),
      ("p", .jstr "3"), ("q", .jstr "0.5"), ("T", .jint 2),
      ("m", .jbool false), ("a", .jint 8)]]
    PyMsg.parseFail
    (by
      intro m hm
      rw [List.mem_singleton] at hm
      subst hm
      exact ⟨⟨.jstr "BTCUSDT", ⟨3, 2⟩, ⟨2, 1⟩, .jint 1, .jbool true,
        .jint 7⟩, by decide⟩)
    (by
      intro m hm
      rw [List.mem_singleton] at hm
      subst hm
      exact ⟨⟨.jstr "ETHUSDT", ⟨3, 1⟩, ⟨1, 2⟩, .jint 2, .jbool false,
        .jint 8⟩, by decide⟩)
    (fun t h => by simp [onMessage, decodeTrade] at h)).2.1

/-- C8: the concrete Binance aggTrade message normalizes field-for-field:
`s`, `T`, `m`, `a` are carried over unchanged, and the string fields `p`
and `q` are parsed to the numbers 50000.5 and 0.01. -/
theorem aggtrade_normalization :
    onMessage (.dict [("e", .jstr "aggTrade"), ("s", .jstr "BTCUSDT"),
        ("p", .jstr "50000.5"), ("q", .jstr "0.01"),
        ("T", .jint 1699564800000), ("m", .jbool true), ("a", .jint 123)])
      = .published ⟨.jstr "BTCUSDT", ⟨100001, 2⟩, ⟨1, 100⟩,
          .jint 1699564800000, .jbool true, .jint 123⟩
    ∧ (⟨100001, 2⟩ : PyNum).toRat = 50000.5
    ∧ (⟨1, 100⟩ : PyNum).toRat = 0.01 := by
  refine ⟨by decide, by norm_num [PyNum.toRat], by norm_num [PyNum.toRat]⟩
